import Mathlib

/-!
Verification of the NovaDrone ESC firmware core (sensorless six-step BLDC control).

This file gives a shallow embedding of the firmware's core components and proves
properties of them:

* the six-step commutation tables and floating-phase lookup
  (Services/Computation/bldc_motor.c, Control/Scenarios/control_six_step.c);
* the inverter commutation entry point and its range guard;
* the PID controller (Services/Algorithm/service_pid.c);
* the BEMF monitor's zero-crossing lock/unlock state machine
  (Services/Computation/bemf_monitor.c);
* the event-driven open-loop ramp engine (Services/Computation/bldc_motor.c);
* the commutation state machine with its open-loop to closed-loop handover and
  direction-reversal sequencing (Control/Scenarios/control_six_step.c), over an
  explicit one-shot-scheduler slot modelled after the driver in
  driver_time_oneshot.c.

C `float` values are embedded as rationals (exact arithmetic on the literal
constants of the source); `uint8_t`/`uint32_t` counters are embedded as `Nat`
with the source's explicit saturation / modulus operations.
-/

namespace NovaDrone

/-- Logical motor phase at the service/control level (s_motor_phase_t). -/
inductive SPhase
  | A
  | B
  | C
deriving DecidableEq, Repr

/-- Per-phase inverter output state (phase_output_state_t of the inverter
interface): Hi-Z, complementary PWM, high-side-only PWM, low-side-only PWM,
forced high, forced low. -/
inductive PhaseOutputState
  | hiz
  | pwmActive
  | pwmHigh
  | pwmLow
  | forcedHigh
  | forcedLow
deriving DecidableEq, Repr

/-- One six-step output pattern: the output state of phases A, B, C
(sixstep_pattern_t, state[PHASE_COUNT]). -/
structure SixStepPattern where
  a : PhaseOutputState
  b : PhaseOutputState
  c : PhaseOutputState
deriving DecidableEq, Repr

/-- State of a given phase in a pattern (pattern->state[ph]). -/
def SixStepPattern.stateOf (p : SixStepPattern) : SPhase → PhaseOutputState
  | .A => p.a
  | .B => p.b
  | .C => p.c

/-- Number of floating (Hi-Z) phases in a pattern. -/
def SixStepPattern.hizCount (p : SixStepPattern) : ℕ :=
  (if p.a = .hiz then 1 else 0) +
  (if p.b = .hiz then 1 else 0) +
  (if p.c = .hiz then 1 else 0)

/-- Commutation table for clockwise rotation (sixstep_table_cw in
bldc_motor.c). -/
def sixstep_table_cw : List SixStepPattern :=
  [ ⟨.pwmHigh, .pwmLow,  .hiz⟩,
    ⟨.pwmHigh, .hiz,     .pwmLow⟩,
    ⟨.hiz,     .pwmHigh, .pwmLow⟩,
    ⟨.pwmLow,  .pwmHigh, .hiz⟩,
    ⟨.pwmLow,  .hiz,     .pwmHigh⟩,
    ⟨.hiz,     .pwmLow,  .pwmHigh⟩ ]

/-- Commutation table for counter-clockwise rotation (sixstep_table_ccw in
bldc_motor.c). -/
def sixstep_table_ccw : List SixStepPattern :=
  [ ⟨.hiz,     .pwmLow,  .pwmHigh⟩,
    ⟨.pwmLow,  .hiz,     .pwmHigh⟩,
    ⟨.pwmLow,  .pwmHigh, .hiz⟩,
    ⟨.hiz,     .pwmHigh, .pwmLow⟩,
    ⟨.pwmHigh, .hiz,     .pwmLow⟩,
    ⟨.pwmHigh, .pwmLow,  .hiz⟩ ]

/-- Table entry used by Inverter_SixStepCommutate for a step already reduced
to 0..5 (cw ? &sixstep_table_cw[step] : &sixstep_table_ccw[step]). -/
def sixstepPattern (step : ℕ) (cw : Bool) : SixStepPattern :=
  (if cw then sixstep_table_cw else sixstep_table_ccw).getD step
    ⟨.hiz, .hiz, .hiz⟩

/-- Floating-phase lookup table for CW rotation (float_phase_cw inside
Motor_GetFloatingPhase, control_six_step.c). -/
def float_phase_cw : List SPhase := [.C, .B, .A, .C, .B, .A]

/-- Floating-phase lookup table for CCW rotation (float_phase_ccw inside
Motor_GetFloatingPhase, control_six_step.c). -/
def float_phase_ccw : List SPhase := [.A, .B, .C, .A, .B, .C]

/-- Return the floating phase for a given step and direction
(Motor_GetFloatingPhase in control_six_step.c; the C code indexes the tables
with step % 6). -/
def Motor_GetFloatingPhase (step : ℕ) (direction_cw : Bool) : SPhase :=
  (if direction_cw then float_phase_cw else float_phase_ccw).getD (step % 6) .A

/-- Successor in the electrical rotation order A → B → C → A. -/
def SPhase.next : SPhase → SPhase
  | .A => .B
  | .B => .C
  | .C => .A

/-- Predecessor in the electrical rotation order (A → C → B → A). -/
def SPhase.prev : SPhase → SPhase
  | .A => .C
  | .B => .A
  | .C => .B

/-- Finite check behind c3: all of the claim's conjuncts for a step index
already reduced to 0..5. -/
theorem sixstep_table_core (r : ℕ) (hr : r < 6) (cw : Bool) :
    (sixstepPattern r cw).hizCount = 1 ∧
    (sixstepPattern r cw).stateOf
      ((if cw then float_phase_cw else float_phase_ccw).getD r .A) =
        .hiz := by
  interval_cases r <;> cases cw <;> decide

theorem float_rotation_core (r : ℕ) (hr : r < 6) :
    float_phase_cw.getD ((r + 1) % 6) .A = (float_phase_cw.getD r .A).prev ∧
    float_phase_ccw.getD ((r + 1) % 6) .A = (float_phase_ccw.getD r .A).next := by
  interval_cases r <;> decide

/-- C3: for every step and direction, the six-step table leaves exactly one
phase in Hi-Z; Motor_GetFloatingPhase returns exactly the phase marked
STATE_HIZ in the corresponding table entry; over six consecutive steps the
floating phase performs a full rotation (CW advances backwards through
A → B → C, CCW forwards), so each of A, B, C floats exactly twice per six
steps. -/
theorem c3_sixstep_floating_phase (step : ℕ) (cw : Bool) :
    (sixstepPattern (step % 6) cw).hizCount = 1 ∧
    (sixstepPattern (step % 6) cw).stateOf (Motor_GetFloatingPhase step cw) =
      .hiz ∧
    Motor_GetFloatingPhase (step + 1) cw =
      (if cw then (Motor_GetFloatingPhase step cw).prev
       else (Motor_GetFloatingPhase step cw).next) ∧
    (∀ ph : SPhase,
      ((List.range 6).filter (fun i => Motor_GetFloatingPhase i cw = ph)).length
        = 2) := by
  have h6 : step % 6 < 6 := Nat.mod_lt _ (by norm_num)
  have hmod : (step + 1) % 6 = (step % 6 + 1) % 6 := by omega
  refine ⟨(sixstep_table_core _ h6 cw).1, ?_, ?_, ?_⟩
  · have h := (sixstep_table_core _ h6 cw).2
    simpa [Motor_GetFloatingPhase] using h
  · have h := float_rotation_core _ h6
    cases cw
    · simp only [Motor_GetFloatingPhase, Bool.false_eq_true, if_false, hmod]
      exact h.2
    · simp only [Motor_GetFloatingPhase, if_true, hmod]
      exact h.1
  · intro ph
    cases cw <;> cases ph <;> decide

/-! ## Inverter commutation entry point (bldc_motor.c) -/

/-- Observable inverter output state: cached per-phase duty
(inverter_duty_t written by set_all_duties) and per-phase output state
(written by set_output_state). -/
structure InverterState where
  duty_a : ℚ
  duty_b : ℚ
  duty_c : ℚ
  out_a : PhaseOutputState
  out_b : PhaseOutputState
  out_c : PhaseOutputState
deriving DecidableEq, Repr

/-- Apply a six-step commutation pattern (Inverter_SixStepCommutate in
bldc_motor.c): if step >= 6 return immediately; otherwise write duty on the
non-floating phases (0 on the floating one) and set each phase's output
state from the table. -/
def Inverter_SixStepCommutate (step : ℕ) (duty : ℚ) (cw : Bool)
    (inv : InverterState) : InverterState :=
  if 6 ≤ step then inv
  else
    let pattern := sixstepPattern step cw
    { duty_a := if pattern.a ≠ .hiz then duty else 0
      duty_b := if pattern.b ≠ .hiz then duty else 0
      duty_c := if pattern.c ≠ .hiz then duty else 0
      out_a := pattern.a
      out_b := pattern.b
      out_c := pattern.c }

/-- C10: calling Inverter_SixStepCommutate with a step index of 6 or greater
is a no-op: the function returns before writing any duty or output state, so
the inverter state is left unchanged. -/
theorem c10_commutate_out_of_range_noop (step : ℕ) (duty : ℚ) (cw : Bool)
    (inv : InverterState) (h : 6 ≤ step) :
    Inverter_SixStepCommutate step duty cw inv = inv := by
  simp [Inverter_SixStepCommutate, h]

/-- Witness for c10 at the concrete out-of-range step 6. -/
theorem c10_commutate_out_of_range_noop_witness :
    6 ≤ 6 ∧
    Inverter_SixStepCommutate 6 (1/2) true ⟨0, 0, 0, .hiz, .hiz, .hiz⟩ =
      ⟨0, 0, 0, .hiz, .hiz, .hiz⟩ :=
  ⟨le_refl 6,
   c10_commutate_out_of_range_noop 6 (1/2) true ⟨0, 0, 0, .hiz, .hiz, .hiz⟩
     (le_refl 6)⟩

/-! ## PID controller (service_pid.c) -/

/-- PID controller state (pid_t in service_pid.h). -/
structure Pid where
  kp : ℚ
  ki : ℚ
  kd : ℚ
  dt : ℚ
  integrator : ℚ
  prev_error : ℚ
  output : ℚ
  out_min : ℚ
  out_max : ℚ
  integrator_limit : ℚ
deriving DecidableEq, Repr

/-- Initialize a PID controller (Service_PID_Init): gains and sample time
from the arguments, zeroed dynamic state, default limits out_min = 0,
out_max = 1, integrator_limit = 1. -/
def Service_PID_Init (kp ki kd dt : ℚ) : Pid :=
  { kp := kp, ki := ki, kd := kd, dt := dt
    integrator := 0, prev_error := 0, output := 0
    out_min := 0, out_max := 1, integrator_limit := 1 }

/-- Compute the next PID output (Service_PID_Update): integrate with
anti-windup clamp, differentiate on the error delta, sum the three terms and
saturate the output to [out_min, out_max]. Returns the updated state and the
returned output. -/
def Service_PID_Update (pid : Pid) (setpoint measurement : ℚ) : Pid × ℚ :=
  let error := setpoint - measurement
  let integ0 := pid.integrator + pid.ki * error * pid.dt
  let integ :=
    if integ0 > pid.integrator_limit then pid.integrator_limit
    else if integ0 < -pid.integrator_limit then -pid.integrator_limit
    else integ0
  let derivative := (error - pid.prev_error) / pid.dt
  let output0 := pid.kp * error + integ + pid.kd * derivative
  let output :=
    if output0 > pid.out_max then pid.out_max
    else if output0 < pid.out_min then pid.out_min
    else output0
  ({ pid with integrator := integ, prev_error := error, output := output },
   output)

/-- Reset the internal PID state (Service_PID_Reset). -/
def Service_PID_Reset (pid : Pid) : Pid :=
  { pid with integrator := 0, prev_error := 0, output := 0 }

/-- Counterexample to C9 as stated: a PID state with kp = ki = kd = 0 but a
nonzero integrator accumulator (0.5, within the windup limit) on a nonzero
error returns the integrator value 0.5, not out_min = 0.05, so the claim's
quantification over every zero-gain PID state is false. -/
theorem c9_pid_zero_gains_counterexample :
    (1 : ℚ) - 0 ≠ 0 ∧
    (Service_PID_Update
      { kp := 0, ki := 0, kd := 0, dt := 1/1000
        integrator := 1/2, prev_error := 0, output := 0
        out_min := 1/20, out_max := 19/20, integrator_limit := 1 } 1 0).2 ≠
      (1/20 : ℚ) := by
  constructor
  · norm_num
  · norm_num [Service_PID_Update]

/-- C9 (amended): for every PID state with zero gains whose integrator
accumulator is zero (as after Service_PID_Init or Service_PID_Reset), a
nonnegative integrator limit and output bounds 0 ≤ out_min ≤ out_max, and
every setpoint/measurement pair with nonzero error, Service_PID_Update
returns the output clamped to out_min and the integrator stays at zero. -/
theorem c9_pid_zero_gains_saturates_low (pid : Pid) (setpoint measurement : ℚ)
    (hkp : pid.kp = 0) (hki : pid.ki = 0) (hkd : pid.kd = 0)
    (hint : pid.integrator = 0) (hlim : 0 ≤ pid.integrator_limit)
    (hmin : 0 ≤ pid.out_min) (hminmax : pid.out_min ≤ pid.out_max)
    (herr : setpoint - measurement ≠ 0) :
    (Service_PID_Update pid setpoint measurement).2 = pid.out_min ∧
    (Service_PID_Update pid setpoint measurement).1.integrator = 0 := by
  have hnot1 : ¬((0 : ℚ) > pid.integrator_limit) := not_lt.mpr hlim
  have hnot2 : ¬((0 : ℚ) < -pid.integrator_limit) := by
    simpa using neg_nonpos.mpr hlim
  have hnot3 : ¬((0 : ℚ) > pid.out_max) :=
    not_lt.mpr (le_trans hmin hminmax)
  rcases lt_or_eq_of_le hmin with hpos | hzero
  · simp [Service_PID_Update, hkp, hki, hkd, hint, hnot1, hnot2, hnot3, hpos]
  · simp [Service_PID_Update, hkp, hki, hkd, hint, hnot1, hnot2, hnot3,
      ← hzero]

/-- Witness for c9 at a concrete freshly-configured PID (the gains-zeroed
analogue of the controller configured in Control_Motor_Init) on error 1. -/
theorem c9_pid_zero_gains_saturates_low_witness :
    (Service_PID_Update
      { kp := 0, ki := 0, kd := 0, dt := 1/1000
        integrator := 0, prev_error := 0, output := 0
        out_min := 1/20, out_max := 19/20, integrator_limit := 1/2 } 1 0).2 =
      (1/20 : ℚ) ∧
    (Service_PID_Update
      { kp := 0, ki := 0, kd := 0, dt := 1/1000
        integrator := 0, prev_error := 0, output := 0
        out_min := 1/20, out_max := 19/20, integrator_limit := 1/2 } 1 0).1.integrator
      = 0 :=
  c9_pid_zero_gains_saturates_low _ 1 0 rfl rfl rfl rfl (by norm_num)
    (by norm_num) (by norm_num) (by norm_num)

/-! ## BEMF monitor (bemf_monitor.c)

The monitor's tunable thresholds are BEMF_MIN_AMPL_V = 0.005 V,
BEMF_MIN_PERIOD_US = 100, BEMF_MAX_PERIOD_US = 300000,
BEMF_LOCK_COUNT = 2, BEMF_UNLOCK_COUNT = 5. -/

/-- Published BEMF status (bemf_status_t). -/
structure BemfStatus where
  zero_cross_detected : Bool
  period_us : ℚ
  floating_phase : SPhase
  valid : Bool
deriving DecidableEq, Repr

/-- Zeroed status, as produced by memset(&s_bemf_status, 0, ...):
all flags false, period 0, phase A (enum value 0). -/
def bemfStatusZero : BemfStatus :=
  { zero_cross_detected := false, period_us := 0, floating_phase := .A
    valid := false }

/-- Whole module-level state of the BEMF monitor: the published status plus
every file-scope static of bemf_monitor.c. -/
structure BemfState where
  s_bemf_status : BemfStatus
  s_prev_bemf : ℚ
  s_last_zc_time_us : ℕ
  s_initialized : Bool
  s_valid_streak : ℕ
  s_invalid_streak : ℕ
  s_locked : Bool
  s_last_period_us : ℚ
  s_bootstrap : Bool
deriving DecidableEq, Repr

/-- BEMF_Init: zero the published status, clear the previous sample, stamp
the last zero-cross time with the current time and mark the service
initialized. The detection statics (streaks, lock, filtered period,
bootstrap flag) are not written by this function. -/
def BEMF_Init (s : BemfState) (now : ℕ) : BemfState :=
  { s with s_bemf_status := bemfStatusZero, s_prev_bemf := 0
           s_last_zc_time_us := now, s_initialized := true }

/-- BEMF_Reset: zero the published status and clear every dynamic detection
variable (previous sample, filtered period, streaks, lock, bootstrap flag),
re-stamping the last zero-cross time; s_initialized is untouched. -/
def BEMF_Reset (s : BemfState) (now : ℕ) : BemfState :=
  { s with s_bemf_status := bemfStatusZero, s_prev_bemf := 0
           s_last_period_us := 0, s_last_zc_time_us := now
           s_valid_streak := 0, s_invalid_streak := 0, s_locked := false
           s_bootstrap := true }

/-- Zero-crossing handler of BEMF_Process: the body of the
`if (zc_detected)` block (amplitude guard, bootstrap baseline, period-bounds
filter, streak/lock bookkeeping and status publication), followed by the
trailing `s_prev_bemf = bemf` update. `bemf` is the signed BEMF sample that
triggered the sign change, `phase` the floating phase passed to process,
`now` the ITime timestamp of this crossing. -/
def bemfZcUpdate (s : BemfState) (phase : SPhase) (bemf : ℚ) (now : ℕ) :
    BemfState :=
  if |bemf| < 1/200 ∧ |s.s_prev_bemf| < 1/200 then
    { s with s_prev_bemf := bemf }
  else if s.s_bootstrap then
    { s with s_last_zc_time_us := now, s_bootstrap := false
             s_valid_streak := 0, s_invalid_streak := 0
             s_bemf_status := { s.s_bemf_status with
               zero_cross_detected := false, valid := false }
             s_prev_bemf := bemf }
  else
    let period : ℚ := ((now - s.s_last_zc_time_us : ℕ) : ℚ)
    if period < 100 ∨ 300000 < period then
      let inv := if s.s_invalid_streak < 255 then s.s_invalid_streak + 1
                 else s.s_invalid_streak
      let locked := if s.s_locked = true ∧ 5 ≤ inv then false else s.s_locked
      { s with s_invalid_streak := inv, s_valid_streak := 0
               s_locked := locked
               s_bemf_status := { s.s_bemf_status with
                 zero_cross_detected := false, valid := locked }
               s_prev_bemf := bemf }
    else
      let lp := if s.s_last_period_us = 0 then period
                else (9/10) * s.s_last_period_us + (1/10) * period
      let vs := if s.s_valid_streak < 255 then s.s_valid_streak + 1
                else s.s_valid_streak
      let locked := if s.s_locked = false ∧ 2 ≤ vs then true else s.s_locked
      { s with s_last_zc_time_us := now, s_invalid_streak := 0
               s_last_period_us := lp, s_valid_streak := vs
               s_locked := locked
               s_bemf_status := { s.s_bemf_status with
                 period_us := lp, floating_phase := phase
                 zero_cross_detected := true, valid := locked }
               s_prev_bemf := bemf }

/-- Raw synchronized phase-voltage snapshot (motor_measurements_t, voltage
fields). -/
structure MotorMeasurements where
  v_phase_a_raw : ℕ
  v_phase_b_raw : ℕ
  v_phase_c_raw : ℕ
deriving DecidableEq, Repr

/-- Convert raw 12-bit ADC counts to volts (adc_to_voltage): raw * 3.3 / 4095. -/
def adc_to_voltage (raw : ℕ) : ℚ := ((raw : ℚ) * (33/10)) / 4095

/-- BEMF_Process at the sample level: no-op if not initialized or if no new
measurement snapshot is available; otherwise convert the three phase
voltages, compute the virtual neutral, derive the signed BEMF on the
floating phase (returning with no state change on an out-of-range phase
index), detect a sign change against the previous sample, and run the
zero-crossing handler on a sign change (else only update the previous
sample). -/
def BEMF_Process (s : BemfState) (floating_phase : ℕ)
    (meas : Option MotorMeasurements) (now : ℕ) : BemfState :=
  if s.s_initialized = false then s
  else
    match meas with
    | none => s
    | some m =>
      let va := adc_to_voltage m.v_phase_a_raw
      let vb := adc_to_voltage m.v_phase_b_raw
      let vc := adc_to_voltage m.v_phase_c_raw
      let vn := (va + vb + vc) / 3
      match floating_phase with
      | 0 => bemfProcessSample s .A (va - vn) now
      | 1 => bemfProcessSample s .B (vb - vn) now
      | 2 => bemfProcessSample s .C (vc - vn) now
      | _ => s
where
  /-- Sign-change test and dispatch shared by the three phase cases. -/
  bemfProcessSample (s : BemfState) (phase : SPhase) (bemf : ℚ) (now : ℕ) :
      BemfState :=
    if (0 ≤ bemf ∧ s.s_prev_bemf < 0) ∨ (bemf < 0 ∧ 0 ≤ s.s_prev_bemf) then
      bemfZcUpdate s phase bemf now
    else
      { s with s_prev_bemf := bemf }

/-- BEMF_ClearFlag: clear the one-shot zero-cross flag. -/
def BEMF_ClearFlag (s : BemfState) : BemfState :=
  { s with s_bemf_status := { s.s_bemf_status with
      zero_cross_detected := false } }

/-- Fold the zero-crossing handler over a sequence of crossing events
(signed sample value and timestamp), all on the same floating phase. -/
def bemfRunZc (s : BemfState) (phase : SPhase) (events : List (ℚ × ℕ)) :
    BemfState :=
  events.foldl (fun st e => bemfZcUpdate st phase e.1 e.2) s

/-- Chain of crossings that all pass the amplitude guard and whose
successive periods (measured from the previous accepted crossing, starting
at time t) are within [BEMF_MIN_PERIOD_US, BEMF_MAX_PERIOD_US]. -/
def GoodChain : ℕ → List (ℚ × ℕ) → Prop
  | _, [] => True
  | t, e :: rest =>
      1/200 ≤ |e.1| ∧ t + 100 ≤ e.2 ∧ e.2 ≤ t + 300000 ∧ GoodChain e.2 rest

/-- Detection state after k accepted crossings from a post-bootstrap reset:
streaks and lock are exactly determined by k (lock threshold
BEMF_LOCK_COUNT = 2, streak saturated at 255). -/
def AcceptedRun (k : ℕ) (s : BemfState) : Prop :=
  s.s_bootstrap = false ∧ s.s_valid_streak = min k 255 ∧
  s.s_invalid_streak = 0 ∧ s.s_locked = decide (2 ≤ k) ∧
  s.s_bemf_status.valid = decide (2 ≤ k)

theorem bemf_streak_inc (k : ℕ) :
    (if min k 255 < 255 then min k 255 + 1 else min k 255) = min (k + 1) 255 := by
  split_ifs <;> omega

theorem bemf_lock_step (k : ℕ) :
    (if decide (2 ≤ k) = false ∧ 2 ≤ min (k + 1) 255 then true
     else decide (2 ≤ k)) = decide (2 ≤ k + 1) := by
  by_cases hk : 2 ≤ k
  · simp [hk, show (2 : ℕ) ≤ k + 1 by omega]
  · by_cases h1 : 2 ≤ min (k + 1) 255
    · simp [hk, h1, show (2 : ℕ) ≤ k + 1 by omega]
    · simp [hk, h1, show ¬((2 : ℕ) ≤ k + 1) by omega]

theorem bemf_unlock_step (j : ℕ) :
    (if decide (j < 5) = true ∧ 5 ≤ min (j + 1) 255 then false
     else decide (j < 5)) = decide (j + 1 < 5) := by
  by_cases hj : j < 5
  · by_cases h1 : 5 ≤ min (j + 1) 255
    · simp [hj, h1, show ¬(j + 1 < 5) by omega]
    · simp [hj, h1, show j + 1 < 5 by omega]
  · simp [hj, show ¬(j + 1 < 5) by omega]

theorem bemfZcUpdate_accept (s : BemfState) (phase : SPhase) (b : ℚ) (n k : ℕ)
    (hA : AcceptedRun k s) (hamp : 1/200 ≤ |b|)
    (h1 : s.s_last_zc_time_us + 100 ≤ n)
    (h2 : n ≤ s.s_last_zc_time_us + 300000) :
    AcceptedRun (k + 1) (bemfZcUpdate s phase b n) ∧
    (bemfZcUpdate s phase b n).s_last_zc_time_us = n := by
  obtain ⟨hboot, hvs, hinv, hlock, hvalid⟩ := hA
  have hampne : ¬(|b| < 1/200 ∧ |s.s_prev_bemf| < 1/200) := fun h =>
    absurd h.1 (not_lt.mpr hamp)
  have hperiod1 : (100 : ℚ) ≤ ((n - s.s_last_zc_time_us : ℕ) : ℚ) := by
    have : (100 : ℕ) ≤ n - s.s_last_zc_time_us := by omega
    exact_mod_cast this
  have hperiod2 : ((n - s.s_last_zc_time_us : ℕ) : ℚ) ≤ 300000 := by
    have : n - s.s_last_zc_time_us ≤ (300000 : ℕ) := by omega
    exact_mod_cast this
  have hbounds : ¬(((n - s.s_last_zc_time_us : ℕ) : ℚ) < 100 ∨
      (300000 : ℚ) < ((n - s.s_last_zc_time_us : ℕ) : ℚ)) := by
    push_neg
    exact ⟨hperiod1, hperiod2⟩
  rw [bemfZcUpdate, if_neg hampne, hboot]
  simp only [Bool.false_eq_true, if_false, hbounds, ite_false]
  have hvs1 : (if s.s_valid_streak < 255 then s.s_valid_streak + 1
      else s.s_valid_streak) = min (k + 1) 255 := by
    rw [hvs]
    exact bemf_streak_inc k
  have hlock1 : (if s.s_locked = false ∧ 2 ≤
        (if s.s_valid_streak < 255 then s.s_valid_streak + 1
         else s.s_valid_streak) then true
      else s.s_locked) = decide (2 ≤ k + 1) := by
    rw [hvs1, hlock]
    simpa using bemf_lock_step k
  refine ⟨⟨?_, ?_, ?_, ?_, ?_⟩, ?_⟩
  · trivial
  · exact hvs1
  · trivial
  · exact hlock1
  · exact hlock1
  · trivial

theorem bemfRunZc_accepted (phase : SPhase) (events : List (ℚ × ℕ)) :
    ∀ (s : BemfState) (k : ℕ), AcceptedRun k s →
      GoodChain s.s_last_zc_time_us events →
      AcceptedRun (k + events.length) (bemfRunZc s phase events) := by
  induction events with
  | nil => intro s k hA _; simpa [bemfRunZc] using hA
  | cons e rest ih =>
    intro s k hA hchain
    obtain ⟨hamp, h1, h2, hrest⟩ := hchain
    obtain ⟨hA1, hlast⟩ := bemfZcUpdate_accept s phase e.1 e.2 k hA hamp h1 h2
    have := ih (bemfZcUpdate s phase e.1 e.2) (k + 1) hA1 (by rw [hlast]; exact hrest)
    simpa [bemfRunZc, Nat.add_assoc, Nat.add_comm 1 rest.length] using this

/-- C5: starting from the reset state, after the bootstrap baseline crossing
(which passes the amplitude guard), for every chain of crossings that pass
the amplitude and period-bounds filters, the published valid flag after k
accepted crossings is true exactly when k has reached
BEMF_LOCK_COUNT = 2 — so it is false at every earlier point and becomes true
exactly at the second accepted crossing. -/
theorem c5_bemf_lock_exactly_at_threshold (s : BemfState) (tr t0 : ℕ)
    (b0 : ℚ) (phase : SPhase) (events : List (ℚ × ℕ))
    (hamp0 : 1/200 ≤ |b0|) (hchain : GoodChain t0 events) :
    (bemfRunZc (bemfZcUpdate (BEMF_Reset s tr) phase b0 t0) phase
        events).s_bemf_status.valid = decide (2 ≤ events.length) := by
  have hampne : ¬(|b0| < 1/200 ∧ |(BEMF_Reset s tr).s_prev_bemf| < 1/200) :=
    fun h => absurd h.1 (not_lt.mpr hamp0)
  have hA0 : AcceptedRun 0 (bemfZcUpdate (BEMF_Reset s tr) phase b0 t0) ∧
      (bemfZcUpdate (BEMF_Reset s tr) phase b0 t0).s_last_zc_time_us = t0 := by
    rw [bemfZcUpdate, if_neg hampne]
    simp [BEMF_Reset, AcceptedRun]
  have h := bemfRunZc_accepted phase events _ 0 hA0.1
    (by rw [hA0.2]; exact hchain)
  simpa using h.2.2.2.2

/-- Witness for c5: two accepted crossings with period 200 µs lock the
monitor (valid = true = decide (2 ≤ 2)). -/
theorem c5_bemf_lock_exactly_at_threshold_witness :
    (bemfRunZc
        (bemfZcUpdate
          (BEMF_Reset
            { s_bemf_status := bemfStatusZero, s_prev_bemf := 0
              s_last_zc_time_us := 0, s_initialized := true
              s_valid_streak := 0, s_invalid_streak := 0, s_locked := false
              s_last_period_us := 0, s_bootstrap := true } 0)
          SPhase.A 1 1000)
        SPhase.A [(-1, 1200), (1, 1400)]).s_bemf_status.valid =
      decide (2 ≤ ([(-1, 1200), (1, 1400)] : List (ℚ × ℕ)).length) :=
  c5_bemf_lock_exactly_at_threshold _ 0 1000 1 SPhase.A _
    (by norm_num)
    (by refine ⟨by norm_num, by norm_num, by norm_num, ?_⟩
        exact ⟨by norm_num, by norm_num, by norm_num, trivial⟩)

/-- Chain of crossings that all pass the amplitude guard but whose period,
measured from the fixed last accepted crossing at time t (rejected crossings
do not move the baseline), falls outside the period bounds. -/
def BadChain (t : ℕ) (events : List (ℚ × ℕ)) : Prop :=
  ∀ e ∈ events, 1/200 ≤ |e.1| ∧ t ≤ e.2 ∧
    (e.2 < t + 100 ∨ t + 300000 < e.2)

/-- Detection state after j consecutive out-of-bounds crossings from a
locked state with a clean invalid streak: the invalid streak counts j
(saturated at 255) and the lock survives exactly while j < 5
(BEMF_UNLOCK_COUNT). -/
def BadRun (t j : ℕ) (s : BemfState) : Prop :=
  s.s_bootstrap = false ∧ s.s_last_zc_time_us = t ∧
  s.s_invalid_streak = min j 255 ∧ s.s_locked = decide (j < 5) ∧
  s.s_bemf_status.valid = decide (j < 5)

theorem bemfZcUpdate_reject (s : BemfState) (phase : SPhase) (b : ℚ)
    (n t j : ℕ) (hB : BadRun t j s) (hamp : 1/200 ≤ |b|) (hle : t ≤ n)
    (hout : n < t + 100 ∨ t + 300000 < n) :
    BadRun t (j + 1) (bemfZcUpdate s phase b n) := by
  obtain ⟨hboot, hlast, hinv, hlock, hvalid⟩ := hB
  have hampne : ¬(|b| < 1/200 ∧ |s.s_prev_bemf| < 1/200) := fun h =>
    absurd h.1 (not_lt.mpr hamp)
  have hbounds : (((n - s.s_last_zc_time_us : ℕ) : ℚ) < 100 ∨
      (300000 : ℚ) < ((n - s.s_last_zc_time_us : ℕ) : ℚ)) := by
    rcases hout with h | h
    · left
      have : n - s.s_last_zc_time_us < (100 : ℕ) := by omega
      exact_mod_cast this
    · right
      have : (300000 : ℕ) < n - s.s_last_zc_time_us := by omega
      exact_mod_cast this
  rw [bemfZcUpdate, if_neg hampne, hboot]
  simp only [Bool.false_eq_true, if_false, hbounds, ite_true, if_pos]
  have hinv1 : (if s.s_invalid_streak < 255 then s.s_invalid_streak + 1
      else s.s_invalid_streak) = min (j + 1) 255 := by
    rw [hinv]
    exact bemf_streak_inc j
  have hlock1 : (if s.s_locked = true ∧ 5 ≤
        (if s.s_invalid_streak < 255 then s.s_invalid_streak + 1
         else s.s_invalid_streak) then false
      else s.s_locked) = decide (j + 1 < 5) := by
    rw [hinv1, hlock]
    simpa using bemf_unlock_step j
  refine ⟨?_, ?_, ?_, ?_, ?_⟩
  · trivial
  · exact hlast
  · exact hinv1
  · exact hlock1
  · exact hlock1

theorem bemfRunZc_rejected (phase : SPhase) (events : List (ℚ × ℕ)) :
    ∀ (s : BemfState) (t j : ℕ), BadRun t j s → BadChain t events →
      BadRun t (j + events.length) (bemfRunZc s phase events) := by
  induction events with
  | nil => intro s t j hB _; simpa [bemfRunZc] using hB
  | cons e rest ih =>
    intro s t j hB hchain
    have he := hchain e (List.mem_cons_self e rest)
    have hB1 := bemfZcUpdate_reject s phase e.1 e.2 t j hB he.1 he.2.1 he.2.2
    have hrest : BadChain t rest := fun x hx => hchain x (List.mem_cons_of_mem e hx)
    have := ih (bemfZcUpdate s phase e.1 e.2) t (j + 1) hB1 hrest
    simpa [bemfRunZc, Nat.add_assoc, Nat.add_comm 1 rest.length] using this

/-- C6: while the monitor is locked (valid = true, with no pending invalid
streak and bootstrap done), for every chain of crossings whose computed
periods all fall outside [min_period, max_period], the published valid flag
after j consecutive failures is true exactly while j < BEMF_UNLOCK_COUNT =
5 — so it remains true before the fifth failure and becomes false exactly
after it. -/
theorem c6_bemf_unlock_exactly_at_threshold (s : BemfState) (phase : SPhase)
    (events : List (ℚ × ℕ)) (hboot : s.s_bootstrap = false)
    (hinv : s.s_invalid_streak = 0) (hlock : s.s_locked = true)
    (hvalid : s.s_bemf_status.valid = true)
    (hchain : BadChain s.s_last_zc_time_us events) :
    (bemfRunZc s phase events).s_bemf_status.valid =
      decide (events.length < 5) := by
  have hB : BadRun s.s_last_zc_time_us 0 s :=
    ⟨hboot, rfl, by simpa using hinv, by simpa using hlock,
     by simpa using hvalid⟩
  have h := bemfRunZc_rejected phase events s s.s_last_zc_time_us 0 hB hchain
  simpa using h.2.2.2.2

/-- Witness for c6: a locked monitor hit by five consecutive 10 µs-period
spikes unlocks (valid = false = decide (5 < 5)). -/
theorem c6_bemf_unlock_exactly_at_threshold_witness :
    (bemfRunZc
        { s_bemf_status :=
            { zero_cross_detected := false, period_us := 2000
              floating_phase := .A, valid := true }
          s_prev_bemf := 1, s_last_zc_time_us := 10000, s_initialized := true
          s_valid_streak := 8, s_invalid_streak := 0, s_locked := true
          s_last_period_us := 2000, s_bootstrap := false }
        SPhase.A
        [(1, 10010), (-1, 10020), (1, 10030), (-1, 10040), (1, 10050)]
      ).s_bemf_status.valid =
      decide
        (([(1, 10010), (-1, 10020), (1, 10030), (-1, 10040), (1, 10050)] :
          List (ℚ × ℕ)).length < 5) := by
  refine c6_bemf_unlock_exactly_at_threshold _ SPhase.A _ rfl rfl rfl rfl ?_
  intro e he
  fin_cases he <;> exact ⟨by norm_num, by norm_num, Or.inl (by norm_num)⟩

/-- C7 (code divergence): on a module state left by a locked run, BEMF_Init
leaves the lock, both streak counters, the filtered period and the
bootstrap flag untouched, whereas BEMF_Reset clears them — so init() does
not leave the detection state in the reset condition, contrary to its own
documentation and the spec. -/
theorem c7_init_does_not_reset_detection_state :
    (BEMF_Init
        { s_bemf_status :=
            { zero_cross_detected := true, period_us := 5000
              floating_phase := .B, valid := true }
          s_prev_bemf := 1/10, s_last_zc_time_us := 123
          s_initialized := true, s_valid_streak := 7, s_invalid_streak := 2
          s_locked := true, s_last_period_us := 5000, s_bootstrap := false }
        200).s_locked = true ∧
    (BEMF_Init
        { s_bemf_status :=
            { zero_cross_detected := true, period_us := 5000
              floating_phase := .B, valid := true }
          s_prev_bemf := 1/10, s_last_zc_time_us := 123
          s_initialized := true, s_valid_streak := 7, s_invalid_streak := 2
          s_locked := true, s_last_period_us := 5000, s_bootstrap := false }
        200).s_valid_streak = 7 ∧
    (BEMF_Init
        { s_bemf_status :=
            { zero_cross_detected := true, period_us := 5000
              floating_phase := .B, valid := true }
          s_prev_bemf := 1/10, s_last_zc_time_us := 123
          s_initialized := true, s_valid_streak := 7, s_invalid_streak := 2
          s_locked := true, s_last_period_us := 5000, s_bootstrap := false }
        200).s_bootstrap = false ∧
    (BEMF_Reset
        { s_bemf_status :=
            { zero_cross_detected := true, period_us := 5000
              floating_phase := .B, valid := true }
          s_prev_bemf := 1/10, s_last_zc_time_us := 123
          s_initialized := true, s_valid_streak := 7, s_invalid_streak := 2
          s_locked := true, s_last_period_us := 5000, s_bootstrap := false }
        200).s_locked = false ∧
    (BEMF_Reset
        { s_bemf_status :=
            { zero_cross_detected := true, period_us := 5000
              floating_phase := .B, valid := true }
          s_prev_bemf := 1/10, s_last_zc_time_us := 123
          s_initialized := true, s_valid_streak := 7, s_invalid_streak := 2
          s_locked := true, s_last_period_us := 5000, s_bootstrap := false }
        200).s_bootstrap = true := by
  refine ⟨rfl, rfl, rfl, rfl, rfl⟩

/-! ## Event-driven open-loop ramp engine (bldc_motor.c)

The two float transcendentals used by the ramp profiles (powf, expf) have no
exact rational counterpart; the model takes them as function parameters, so
every theorem below holds for every interpretation of them. The termination
logic being verified never evaluates them. -/

/-- Ramp progression profile (motor_ramp_profile_t). -/
inductive RampProfile
  | linear
  | exponential
  | quadratic
  | logarithmic
deriving DecidableEq, Repr

/-- Truncating float-to-uint32 conversion for the nonnegative values the
ramps produce (C cast truncates toward zero). -/
def ratToUInt32 (q : ℚ) : ℕ := (⌊q⌋).toNat

/-- Per-step commutation delay from the current electrical frequency:
1e6 / (6 f), clamped below at 100 µs, then cast to uint32
(step_delay_us in Service_Motor_OpenLoopRamp_Start / Motor_Ramp_OnStepEvent). -/
def rampStepDelayUs (f : ℚ) : ℕ :=
  let v : ℚ := 1000000 / (6 * f)
  if v < 100 then 100 else ratToUInt32 v

/-- Open-loop ramp context (motor_ramp_context_t): static configuration plus
dynamic progress. The completion callback pointer is modelled by its
presence flag. -/
structure RampCtx where
  duty_start : ℚ
  duty_end : ℚ
  freq_start_hz : ℚ
  freq_end_hz : ℚ
  ramp_time_us : ℕ
  direction_cw : Bool
  profile_type : RampProfile
  has_on_complete : Bool
  step_index : ℕ
  elapsed_us : ℕ
  current_duty : ℚ
  current_freq_hz : ℚ
  active : Bool
deriving DecidableEq, Repr

/-- Observable outcome of one Motor_Ramp_OnStepEvent invocation: the updated
context, whether the inverter was disabled, whether the completion callback
was invoked, the delay of the re-armed one-shot (if any), and the
commutation applied (step, duty, direction), if any. -/
structure RampEventResult where
  ctx : RampCtx
  inverter_disabled : Bool
  completed : Bool
  rescheduled : Option ℕ
  commutated : Option (ℕ × ℚ × Bool)
deriving DecidableEq, Repr

/-- One-shot timer callback for ramp progression (Motor_Ramp_OnStepEvent):
accumulate the just-elapsed step period; if the accumulated time has reached
the total ramp time, mark the ramp inactive, disable the inverter, invoke
the completion callback if provided and stop; otherwise compute the
progress ratio, the new frequency per profile, the new duty via the 1.5
power law, advance the step modulo 6, commutate and re-arm the timer. -/
def Motor_Ramp_OnStepEvent (rpow rexp : ℚ → ℚ → ℚ) (ctx : RampCtx) :
    RampEventResult :=
  if ctx.active = false then ⟨ctx, false, false, none, none⟩
  else
    let step_period := rampStepDelayUs ctx.current_freq_hz
    let elapsed := ctx.elapsed_us + step_period
    if ctx.ramp_time_us ≤ elapsed then
      ⟨{ ctx with elapsed_us := elapsed, active := false }, true,
       ctx.has_on_complete, none, none⟩
    else
      let ratio0 : ℚ := (elapsed : ℚ) / (ctx.ramp_time_us : ℚ)
      let ratio := if 1 < ratio0 then 1 else ratio0
      let freq :=
        match ctx.profile_type with
        | .linear =>
            ctx.freq_start_hz + ratio * (ctx.freq_end_hz - ctx.freq_start_hz)
        | .exponential =>
            ctx.freq_start_hz * rpow (ctx.freq_end_hz / ctx.freq_start_hz) ratio
        | .quadratic =>
            ctx.freq_start_hz + rpow ratio 2 *
              (ctx.freq_end_hz - ctx.freq_start_hz)
        | .logarithmic =>
            ctx.freq_end_hz - (ctx.freq_end_hz - ctx.freq_start_hz) *
              rexp (-4 * ratio) 0
      let duty := ctx.duty_start + rpow ratio (3/2) *
        (ctx.duty_end - ctx.duty_start)
      let step := (ctx.step_index + 1) % 6
      ⟨{ ctx with elapsed_us := elapsed, current_freq_hz := freq
                  current_duty := duty, step_index := step },
       false, false, some (rampStepDelayUs freq),
       some (step, duty, ctx.direction_cw)⟩

/-- Observable outcome of Service_Motor_OpenLoopRamp_Start: the initialized
context, the immediately applied first commutation, and the delay of the
scheduled first step event. -/
structure RampStartResult where
  ctx : RampCtx
  commutated : ℕ × ℚ × Bool
  scheduled : ℕ
deriving DecidableEq, Repr

/-- Start an open-loop ramp (Service_Motor_OpenLoopRamp_Start): cancel any
pending event, reset the context from the arguments (ramp_time_ms * 1000U
wraps as uint32), apply commutation step 0 at duty_start immediately, and
schedule the next step after the step delay computed from the start
frequency. -/
def Service_Motor_OpenLoopRamp_Start (duty_start duty_end : ℚ)
    (freq_start_hz freq_end_hz : ℚ) (ramp_time_ms : ℕ) (cw : Bool)
    (profile_type : RampProfile) (has_on_complete : Bool) : RampStartResult :=
  let ctx : RampCtx :=
    { duty_start := duty_start, duty_end := duty_end
      freq_start_hz := freq_start_hz, freq_end_hz := freq_end_hz
      ramp_time_us := (ramp_time_ms * 1000) % 2 ^ 32
      direction_cw := cw, profile_type := profile_type
      has_on_complete := has_on_complete
      step_index := 0, elapsed_us := 0
      current_duty := duty_start, current_freq_hz := freq_start_hz
      active := true }
  ⟨ctx, (0, duty_start, cw), rampStepDelayUs freq_start_hz⟩

/-- C8: a ramp started with ramp_time_ms = 0 — whatever the duties,
frequencies, direction, profile and callback — terminates on the very first
timer callback evaluation: the ramp is marked inactive, the inverter is
disabled, the completion callback is invoked exactly when one was provided,
no commutation is applied and no further step is scheduled. -/
theorem c8_zero_time_ramp_terminates_on_first_event
    (rpow rexp : ℚ → ℚ → ℚ) (duty_start duty_end freq_start freq_end : ℚ)
    (cw : Bool) (profile : RampProfile) (has_cb : Bool) :
    (Motor_Ramp_OnStepEvent rpow rexp
        (Service_Motor_OpenLoopRamp_Start duty_start duty_end freq_start
          freq_end 0 cw profile has_cb).ctx).ctx.active = false ∧
    (Motor_Ramp_OnStepEvent rpow rexp
        (Service_Motor_OpenLoopRamp_Start duty_start duty_end freq_start
          freq_end 0 cw profile has_cb).ctx).inverter_disabled = true ∧
    (Motor_Ramp_OnStepEvent rpow rexp
        (Service_Motor_OpenLoopRamp_Start duty_start duty_end freq_start
          freq_end 0 cw profile has_cb).ctx).completed = has_cb ∧
    (Motor_Ramp_OnStepEvent rpow rexp
        (Service_Motor_OpenLoopRamp_Start duty_start duty_end freq_start
          freq_end 0 cw profile has_cb).ctx).rescheduled = none ∧
    (Motor_Ramp_OnStepEvent rpow rexp
        (Service_Motor_OpenLoopRamp_Start duty_start duty_end freq_start
          freq_end 0 cw profile has_cb).ctx).commutated = none := by
  simp [Motor_Ramp_OnStepEvent, Service_Motor_OpenLoopRamp_Start]

/-! ## Commutation state machine (control_six_step.c)

Module state of the control scenario, embedded as an explicit state record.
The one-shot commutation scheduler is modelled after driver_time_oneshot.c:
its context holds a single callback slot, so the armed event is an
`Option (PendingKind × ℕ)` (callback identity and programmed delay in µs)
and drv_oneshot_start overwrites it (replace-on-start). The inverter's
electrical outputs and the BEMF monitor's internals are external to this
record; the fast loop takes the monitor's published status and the ramp
state as an observation argument. -/

/-- Configuration constants of control_six_step.c. COMM_LEAD_FACTOR 0.45f is
the exact rational 9/20. -/
def MOTOR_POLE_PAIRS : ℚ := 6

def COMM_DELAY_MIN_US : ℚ := 80

def COMM_DELAY_MAX_US : ℚ := 30000

def COMM_LEAD_FACTOR : ℚ := 9/20

def CL_MIN_VALID_ZC : ℕ := 4

def CL_MIN_DUTY_TRANSITION : ℚ := 1/5

def CL_ENTER_SPEED_HZ : ℚ := 200

/-- Control mode state machine (motor_mode_t). -/
inductive MotorMode
  | stopped
  | openLoop
  | closedLoop
deriving DecidableEq, Repr

/-- Local runtime context (motor_ctx_t). -/
structure MotorCtx where
  step : ℕ
  direction_cw : Bool
  duty : ℚ
  comm_armed : Bool
  transition_scheduled : Bool
  handover_armed : Bool
deriving DecidableEq, Repr

/-- Identity of the callback armed in the one-shot scheduler slot: the
closed-loop commutation handler, the handover commutation handler, or the
open-loop ramp step handler. -/
inductive PendingKind
  | closedLoopComm
  | transitionComm
  | rampStep
deriving DecidableEq, Repr

/-- Module state of the control scenario plus the shared one-shot scheduler
slot and the ramp engine's active flag. -/
structure SysState where
  s_motor_mode : MotorMode
  s_ctx : MotorCtx
  s_floating_phase : SPhase
  s_bemf_status : BemfStatus
  s_measured_speed_rpm : ℚ
  s_target_speed_rpm : ℚ
  s_commanded_speed_rpm : ℚ
  s_buffer_speed_rpm : ℚ
  s_ramp_slope_rpm_ms : ℚ
  speed_pid : Pid
  s_reverse_pending : Bool
  s_zc_count : ℕ
  s_comm_count : ℕ
  s_valid_zc_count : ℕ
  slot : Option (PendingKind × ℕ)
  ramp_active : Bool
deriving DecidableEq, Repr

/-- fminf(fmaxf(x, lo), hi). -/
def clampQ (x lo hi : ℚ) : ℚ := min (max x lo) hi

/-- Modelled from the spec: Service_ScheduleCommutation (implementation not
under src/, only its declaration in services_system.c) forwards the delay to
the one-shot timer's start. drv_oneshot_start (driver_time_oneshot.c, in
src/) overwrites the single callback slot — replace-on-start — after
clamping the delay below at min_delay_us = 5; the float delay is converted
to uint32 by truncation. -/
def Service_ScheduleCommutation (delay_us : ℚ) (kind : PendingKind)
    (s : SysState) : SysState :=
  { s with slot := some (kind, max (ratToUInt32 delay_us) 5) }

/-- Modelled from the spec: Service_Motor_OpenLoopRamp_StopSoft
(implementation not under src/) cancels the pending one-shot event and
deactivates the ramp but leaves the inverter output engaged. -/
def Service_Motor_OpenLoopRamp_StopSoft (s : SysState) : SysState :=
  { s with slot := none, ramp_active := false }

/-- Modelled from the spec: Service_Motor_Stop (implementation not under
src/) disables the inverter and cancels the one-shot timer. -/
def Service_Motor_Stop (s : SysState) : SysState :=
  { s with slot := none }

/-- Closed-loop commutation callback (Motor_ClosedLoop_Commutate): clear the
armed flag, advance the step modulo 6, apply the pattern and recompute the
floating phase. -/
def Motor_ClosedLoop_Commutate (s : SysState) : SysState :=
  let step := (s.s_ctx.step + 1) % 6
  { s with s_ctx := { s.s_ctx with comm_armed := false, step := step }
           s_floating_phase :=
             Motor_GetFloatingPhase step s.s_ctx.direction_cw
           s_comm_count := s.s_comm_count + 1 }

/-- Handover commutation callback (Motor_Transition_Commutate): clear both
transition guard flags, advance the step and apply the pattern, switch to
closed-loop mode with the armed flag cleared, stop the ramp softly,
synchronize measured/target speed from the stored BEMF period, and — if the
stored status is valid — immediately arm the first closed-loop commutation
after the clamped lead delay. -/
def Motor_Transition_Commutate (s : SysState) : SysState :=
  let step := (s.s_ctx.step + 1) % 6
  let s3 : SysState :=
    { s with
      s_ctx := { s.s_ctx with
        transition_scheduled := false,
        handover_armed := false,
        step := step,
        comm_armed := false },
      s_floating_phase := Motor_GetFloatingPhase step s.s_ctx.direction_cw,
      s_motor_mode := .closedLoop }
  let s4 := Service_Motor_OpenLoopRamp_StopSoft s3
  let electrical_freq_hz : ℚ := 1000000 / (6 * s4.s_bemf_status.period_us)
  let measured := electrical_freq_hz * 60 / MOTOR_POLE_PAIRS
  let s5 := { s4 with s_measured_speed_rpm := measured
                      s_target_speed_rpm := measured }
  if s5.s_bemf_status.valid = true ∧ s5.s_ctx.comm_armed = false then
    let delay_us := clampQ (s5.s_bemf_status.period_us * COMM_LEAD_FACTOR)
      COMM_DELAY_MIN_US COMM_DELAY_MAX_US
    let s6 := Service_ScheduleCommutation delay_us .closedLoopComm s5
    { s6 with s_ctx := { s6.s_ctx with comm_armed := true } }
  else s5

/-- Observation consumed by one Motor_FastLoop invocation: the BEMF status
published by process/get_status this cycle, the Service_GetTimeUs timestamp,
the monitor's last zero-cross timestamp, and the ramp state returned by
Service_Motor_OpenLoopRamp_GetState. -/
structure FastLoopObs where
  status : BemfStatus
  now_us : ℕ
  last_zc_time_us : ℕ
  ramp_step : ℕ
  ramp_duty : ℚ
  ramp_dir : Bool

/-- Closed-loop scheduling section of Motor_FastLoop (step 3): on a
zero-crossing in closed-loop mode with valid BEMF, matching floating phase
and no commutation armed, schedule the commutation after the clamped lead
delay and set the armed flag. -/
def flClosedLoopSection (s : SysState) : SysState :=
  if s.s_motor_mode = .closedLoop ∧ s.s_bemf_status.valid = true ∧
      s.s_bemf_status.floating_phase = s.s_floating_phase ∧
      s.s_ctx.comm_armed = false then
    let delay_us := clampQ (s.s_bemf_status.period_us * COMM_LEAD_FACTOR)
      COMM_DELAY_MIN_US COMM_DELAY_MAX_US
    let st := Service_ScheduleCommutation delay_us .closedLoopComm s
    { st with s_ctx := { st.s_ctx with comm_armed := true } }
  else s

/-- Handover section of Motor_FastLoop (step 4): in open-loop mode with
valid BEMF and no transition scheduled, gate on the electrical speed,
update the same-floating-phase streak, and once the streak reaches
CL_MIN_VALID_ZC capture the ramp state (duty clamped to the transition
floor), compute the remaining time to the ideal commutation instant
(period x lead factor minus the age of the last zero-cross) and either
commutate immediately (if below COMM_DELAY_MIN_US) or schedule the
transition commutation after exactly that remaining time. -/
def flHandoverSection (obs : FastLoopObs) (s : SysState) : SysState :=
  if s.s_motor_mode = .openLoop ∧ s.s_bemf_status.valid = true ∧
      s.s_ctx.transition_scheduled = false then
    let current_speed_hz : ℚ := 1000000 / (6 * s.s_bemf_status.period_us)
    if CL_ENTER_SPEED_HZ ≤ current_speed_hz then
      let cnt := if s.s_bemf_status.floating_phase = s.s_floating_phase then
          s.s_valid_zc_count + 1 else 0
      let sa := { s with s_valid_zc_count := cnt }
      if CL_MIN_VALID_ZC ≤ cnt then
        let sb := { sa with s_ctx := { sa.s_ctx with
          step := obs.ramp_step
          duty := max obs.ramp_duty CL_MIN_DUTY_TRANSITION
          direction_cw := obs.ramp_dir } }
        let age_us : ℚ := ((obs.now_us - obs.last_zc_time_us : ℕ) : ℚ)
        let t_comm_us : ℚ :=
          sb.s_bemf_status.period_us * COMM_LEAD_FACTOR - age_us
        let sc :=
          if t_comm_us < COMM_DELAY_MIN_US then
            Motor_Transition_Commutate sb
          else
            let st := Service_ScheduleCommutation t_comm_us .transitionComm sb
            { st with s_ctx := { st.s_ctx with
                transition_scheduled := true, handover_armed := true } }
        { sc with s_valid_zc_count := 0 }
      else sa
    else s
  else s

/-- Motor fast loop (Motor_FastLoop, 24 kHz): refresh the floating phase
from the ramp while in open-loop, store the processed BEMF status, return
early when no zero-crossing was detected, otherwise run the closed-loop
scheduling section then the handover section (the monitor's one-shot flag
clearing happens inside the monitor, outside this record). -/
def Motor_FastLoop (obs : FastLoopObs) (s : SysState) : SysState :=
  let s1 := if s.s_motor_mode = .openLoop then
      { s with s_floating_phase :=
          Motor_GetFloatingPhase obs.ramp_step obs.ramp_dir }
    else s
  let s2 := { s1 with s_bemf_status := obs.status }
  if s2.s_bemf_status.zero_cross_detected = false then s2
  else
    flHandoverSection obs
      (flClosedLoopSection { s2 with s_zc_count := s2.s_zc_count + 1 })

/-- Start the open-loop ramp after alignment (Motor_StartOpenLoopRamp):
reset the monitor, enter open-loop mode, zero the debug counters, clear all
guard flags, and start the ramp (which replaces any pending one-shot with
its own step event; start frequency 25 Hz). -/
def Motor_StartOpenLoopRamp (s : SysState) : SysState :=
  { s with
    s_motor_mode := .openLoop,
    s_zc_count := 0, s_comm_count := 0, s_valid_zc_count := 0,
    s_ctx := { s.s_ctx with
      transition_scheduled := false,
      handover_armed := false,
      comm_armed := false },
    slot := some (.rampStep, rampStepDelayUs 25),
    ramp_active := true }

/-- Modelled from the spec: Service_Motor_Align_Rotor (callback flavour, not
under src/) drives a fixed alignment vector for the requested duration and
then invokes the completion callback — here always Motor_StartOpenLoopRamp,
run to completion as the in-src blocking alignment does. -/
def Service_Motor_Align_Rotor_StartRamp (s : SysState) : SysState :=
  Motor_StartOpenLoopRamp s

/-- Speed regulator low loop (Motor_LowLoop, 1 kHz): recompute the measured
mechanical speed from the stored BEMF period when valid; ramp the internal
target toward the command (closed-loop only, otherwise reset it); run the
PID when in closed-loop with valid BEMF; and when a reversal is pending and
the measured speed has fallen below 400 RPM, clear the pending flag, flip
the direction, perform a full stop, re-apply the buffered command and
restart through alignment into the open-loop ramp. -/
def Motor_LowLoop (s : SysState) : SysState :=
  let s1 : SysState :=
    if s.s_bemf_status.valid = true ∧ 0 < s.s_bemf_status.period_us then
      let f_elec : ℚ := 1000000 / (6 * s.s_bemf_status.period_us)
      { s with s_measured_speed_rpm := f_elec * 60 / MOTOR_POLE_PAIRS }
    else s
  let s2 : SysState :=
    if s1.s_motor_mode = .closedLoop then
      let delta := clampQ (s1.s_commanded_speed_rpm - s1.s_target_speed_rpm)
        (-s1.s_ramp_slope_rpm_ms) s1.s_ramp_slope_rpm_ms
      { s1 with s_target_speed_rpm := s1.s_target_speed_rpm + delta }
    else { s1 with s_target_speed_rpm := 0 }
  let s3 : SysState :=
    if s2.s_motor_mode = .closedLoop ∧ s2.s_bemf_status.valid = true then
      let r := Service_PID_Update s2.speed_pid s2.s_target_speed_rpm
        s2.s_measured_speed_rpm
      { s2 with speed_pid := r.1, s_ctx := { s2.s_ctx with duty := r.2 } }
    else s2
  if s3.s_reverse_pending = true ∧ s3.s_measured_speed_rpm < 400 then
    let s4 : SysState :=
      { s3 with
        s_reverse_pending := false,
        s_ctx := { s3.s_ctx with direction_cw := !s3.s_ctx.direction_cw } }
    let s5 := Service_Motor_Stop s4
    let s6 : SysState :=
      { s5 with
        s_motor_mode := .stopped,
        s_commanded_speed_rpm := s5.s_buffer_speed_rpm }
    Service_Motor_Align_Rotor_StartRamp s6
  else s3

/-- Set the signed speed command (Control_Motor_SetSpeed_RPM): start through
alignment if stopped; if running in the opposite direction, zero the
command, buffer the magnitude and set the reverse-pending flag; otherwise
update the command. -/
def Control_Motor_SetSpeed_RPM (rpm : ℚ) (s : SysState) : SysState :=
  let new_dir_cw : Bool := decide (0 ≤ rpm)
  let target_rpm := |rpm|
  if s.s_motor_mode = .stopped then
    Service_Motor_Align_Rotor_StartRamp
      { s with s_ctx := { s.s_ctx with direction_cw := new_dir_cw }
               s_commanded_speed_rpm := target_rpm }
  else if s.s_ctx.direction_cw ≠ new_dir_cw ∧ s.s_motor_mode ≠ .stopped then
    { s with s_commanded_speed_rpm := 0
             s_buffer_speed_rpm := target_rpm
             s_reverse_pending := true }
  else if s.s_motor_mode = .openLoop ∨ s.s_motor_mode = .closedLoop then
    { s with s_commanded_speed_rpm := target_rpm }
  else s

/-- Stop the motor (Control_Motor_Stop): zero the command, stop the service
layer (cancelling the one-shot), memset the context to zero and return to
stopped mode with zeroed speeds. -/
def Control_Motor_Stop (s : SysState) : SysState :=
  let s2 := Service_Motor_Stop { s with s_commanded_speed_rpm := 0 }
  { s2 with s_ctx := { step := 0, direction_cw := false, duty := 0
                       comm_armed := false, transition_scheduled := false
                       handover_armed := false }
            s_motor_mode := .stopped
            s_target_speed_rpm := 0, s_measured_speed_rpm := 0 }

/-- One-shot timer expiry (Driver_OneShot_OnTimerExpired in
driver_time_oneshot.c): snapshot the armed callback, clear the slot, then
run the callback. A ramp-step callback either finds the ramp inactive (and
returns), completes the ramp, or re-arms the slot with its next step delay
(Motor_Ramp_OnStepEvent); `rampCompletes` and `nextDelay` stand for the
ramp-context arithmetic that decides this, which is verified separately on
the ramp model. -/
def fireOneShot (rampCompletes : Bool) (nextDelay : ℕ) (s : SysState) :
    SysState :=
  match s.slot with
  | none => s
  | some (k, _) =>
    let s0 := { s with slot := none }
    match k with
    | .closedLoopComm => Motor_ClosedLoop_Commutate s0
    | .transitionComm => Motor_Transition_Commutate s0
    | .rampStep =>
        if s0.ramp_active = false then s0
        else if rampCompletes then { s0 with ramp_active := false }
        else { s0 with slot := some (.rampStep, max nextDelay 5) }

/-- State established by Control_Motor_Init: stopped mode, the static
initializer of s_ctx (direction CW, duty 0.3), floating phase A, zeroed
status and speeds, the PID configured with gains (0.0005, 0.001, 0) at 1 ms
and limits out_min 0.05, out_max 0.95, integrator_limit 0.5, and an idle
scheduler. -/
def initState : SysState :=
  { s_motor_mode := .stopped
    s_ctx := { step := 0, direction_cw := true, duty := 3/10
               comm_armed := false, transition_scheduled := false
               handover_armed := false }
    s_floating_phase := .A
    s_bemf_status := bemfStatusZero
    s_measured_speed_rpm := 0, s_target_speed_rpm := 0
    s_commanded_speed_rpm := 0, s_buffer_speed_rpm := 0
    s_ramp_slope_rpm_ms := 10
    speed_pid := { Service_PID_Init (1/2000) (1/1000) 0 (1/1000) with
      out_min := 1/20, out_max := 19/20, integrator_limit := 1/2 }
    s_reverse_pending := false
    s_zc_count := 0, s_comm_count := 0, s_valid_zc_count := 0
    slot := none
    ramp_active := false }

/-- States reachable from initialization under the system's transitions:
fast-loop invocations (with arbitrary observations), low-loop ticks,
one-shot expirations, speed commands and stop commands. -/
inductive Reachable : SysState → Prop
  | init : Reachable initState
  | fastLoop (obs : FastLoopObs) {s : SysState} :
      Reachable s → Reachable (Motor_FastLoop obs s)
  | lowLoop {s : SysState} : Reachable s → Reachable (Motor_LowLoop s)
  | fire (rampCompletes : Bool) (nextDelay : ℕ) {s : SysState} :
      Reachable s → Reachable (fireOneShot rampCompletes nextDelay s)
  | setSpeed (rpm : ℚ) {s : SysState} :
      Reachable s → Reachable (Control_Motor_SetSpeed_RPM rpm s)
  | stop {s : SysState} : Reachable s → Reachable (Control_Motor_Stop s)

/-- Number of events pending in the one-shot scheduler (0 or 1 by the
single-slot driver structure). -/
def pendingCount (s : SysState) : ℕ :=
  match s.slot with
  | none => 0
  | some _ => 1

/-- Guard-flag coordination invariant: the closed-loop armed flag only holds
in closed-loop mode, the transition flags only in open-loop mode (hence the
two are never set together), handover_armed tracks transition_scheduled,
and an armed slot callback implies its guard flag. -/
def GuardInv (s : SysState) : Prop :=
  (s.s_ctx.comm_armed = true → s.s_motor_mode = .closedLoop) ∧
  (s.s_ctx.transition_scheduled = true → s.s_motor_mode = .openLoop) ∧
  s.s_ctx.handover_armed = s.s_ctx.transition_scheduled ∧
  (∀ d : ℕ, s.slot = some (.closedLoopComm, d) → s.s_ctx.comm_armed = true) ∧
  (∀ d : ℕ, s.slot = some (.transitionComm, d) →
    s.s_ctx.transition_scheduled = true)

theorem guardInv_of_fields (t s : SysState) (h : GuardInv s)
    (hm : t.s_motor_mode = s.s_motor_mode)
    (hc : t.s_ctx.comm_armed = s.s_ctx.comm_armed)
    (hts : t.s_ctx.transition_scheduled = s.s_ctx.transition_scheduled)
    (hh : t.s_ctx.handover_armed = s.s_ctx.handover_armed)
    (hsl : t.slot = s.slot) : GuardInv t := by
  obtain ⟨h1, h2, h3, h4, h5⟩ := h
  refine ⟨?_, ?_, ?_, ?_, ?_⟩
  · intro hx
    rw [hc] at hx
    rw [hm]
    exact h1 hx
  · intro hx
    rw [hts] at hx
    rw [hm]
    exact h2 hx
  · rw [hh, hts]
    exact h3
  · intro d hd
    rw [hsl] at hd
    rw [hc]
    exact h4 d hd
  · intro d hd
    rw [hsl] at hd
    rw [hts]
    exact h5 d hd

theorem guardInv_initState : GuardInv initState := by
  simp [GuardInv, initState]

theorem guardInv_startRamp (s : SysState) :
    GuardInv (Motor_StartOpenLoopRamp s) := by
  simp [GuardInv, Motor_StartOpenLoopRamp]

theorem guardInv_stopCmd (s : SysState) :
    GuardInv (Control_Motor_Stop s) := by
  simp [GuardInv, Control_Motor_Stop, Service_Motor_Stop]

theorem guardInv_transitionCommutate (s : SysState) :
    GuardInv (Motor_Transition_Commutate s) := by
  unfold Motor_Transition_Commutate Service_Motor_OpenLoopRamp_StopSoft
    Service_ScheduleCommutation GuardInv
  dsimp only
  split_ifs <;> simp

theorem guardInv_closedLoopCommutate (s : SysState) (h : GuardInv s)
    (hslot : s.slot = none) :
    GuardInv (Motor_ClosedLoop_Commutate s) := by
  obtain ⟨h1, h2, h3, h4, h5⟩ := h
  refine ⟨?_, ?_, ?_, ?_, ?_⟩
  · intro hx
    simp [Motor_ClosedLoop_Commutate] at hx
  · intro hx
    simp only [Motor_ClosedLoop_Commutate] at hx ⊢
    exact h2 hx
  · simp only [Motor_ClosedLoop_Commutate]
    exact h3
  · intro d hd
    simp [Motor_ClosedLoop_Commutate, hslot] at hd
  · intro d hd
    simp [Motor_ClosedLoop_Commutate, hslot] at hd

theorem guardInv_flClosedLoopSection (s : SysState) (h : GuardInv s) :
    GuardInv (flClosedLoopSection s) := by
  unfold flClosedLoopSection Service_ScheduleCommutation
  split_ifs with hc
  · obtain ⟨h1, h2, h3, h4, h5⟩ := h
    refine ⟨?_, ?_, ?_, ?_, ?_⟩
    · intro _
      simpa using hc.1
    · intro hx
      simp only at hx
      have := h2 hx
      rw [hc.1] at this
      exact absurd this (by simp)
    · simpa using h3
    · intro d _
      rfl
    · intro d hd
      simp at hd
  · exact h

theorem guardInv_flHandoverSection (obs : FastLoopObs) (s : SysState)
    (h : GuardInv s) : GuardInv (flHandoverSection obs s) := by
  unfold flHandoverSection
  dsimp only
  by_cases hc : s.s_motor_mode = .openLoop ∧ s.s_bemf_status.valid = true ∧
      s.s_ctx.transition_scheduled = false
  case neg => rw [if_neg hc]; exact h
  rw [if_pos hc]
  by_cases hs : CL_ENTER_SPEED_HZ ≤ 1000000 / (6 * s.s_bemf_status.period_us)
  case neg => rw [if_neg hs]; exact h
  rw [if_pos hs]
  by_cases hcnt : CL_MIN_VALID_ZC ≤
      (if s.s_bemf_status.floating_phase = s.s_floating_phase then
        s.s_valid_zc_count + 1 else 0)
  case neg =>
    rw [if_neg hcnt]
    apply guardInv_of_fields _ _ h <;> rfl
  rw [if_pos hcnt]
  by_cases himm : s.s_bemf_status.period_us * COMM_LEAD_FACTOR -
      ((obs.now_us - obs.last_zc_time_us : ℕ) : ℚ) < COMM_DELAY_MIN_US
  · rw [if_pos himm]
    apply guardInv_of_fields _ _ (guardInv_transitionCommutate _) <;> rfl
  · rw [if_neg himm]
    obtain ⟨h1, h2, h3, h4, h5⟩ := h
    refine ⟨?_, ?_, ?_, ?_, ?_⟩
    · intro hx
      simp only [Service_ScheduleCommutation] at hx
      have := h1 hx
      rw [hc.1] at this
      exact absurd this (by simp)
    · intro _
      simpa [Service_ScheduleCommutation] using hc.1
    · simp [Service_ScheduleCommutation]
    · intro d hd
      simp [Service_ScheduleCommutation] at hd
    · intro d _
      rfl

theorem guardInv_fastLoop (obs : FastLoopObs) (s : SysState)
    (h : GuardInv s) : GuardInv (Motor_FastLoop obs s) := by
  unfold Motor_FastLoop
  dsimp only
  have hbase : ∀ t : SysState, GuardInv t →
      GuardInv (flHandoverSection obs (flClosedLoopSection t)) := fun t ht =>
    guardInv_flHandoverSection obs _ (guardInv_flClosedLoopSection _ ht)
  split_ifs <;>
    first
      | (apply guardInv_of_fields _ _ h <;> rfl)
      | (apply hbase
         apply guardInv_of_fields _ _ h <;> rfl)

theorem guardInv_setSpeed (rpm : ℚ) (s : SysState) (h : GuardInv s) :
    GuardInv (Control_Motor_SetSpeed_RPM rpm s) := by
  unfold Control_Motor_SetSpeed_RPM Service_Motor_Align_Rotor_StartRamp
  dsimp only
  split_ifs <;>
    first
      | exact guardInv_startRamp _
      | exact h
      | (apply guardInv_of_fields _ _ h <;> rfl)

theorem guardInv_lowLoop (s : SysState) (h : GuardInv s) :
    GuardInv (Motor_LowLoop s) := by
  unfold Motor_LowLoop Service_Motor_Align_Rotor_StartRamp Service_Motor_Stop
  dsimp only
  split_ifs <;>
    first
      | exact guardInv_startRamp _
      | (apply guardInv_of_fields _ _ h <;> rfl)

theorem guardInv_fire (rampCompletes : Bool) (nextDelay : ℕ) (s : SysState)
    (h : GuardInv s) :
    GuardInv (fireOneShot rampCompletes nextDelay s) := by
  unfold fireOneShot
  cases hs : s.slot with
  | none => exact h
  | some kd =>
    obtain ⟨k, del⟩ := kd
    have h0 : GuardInv { s with slot := none } := by
      refine ⟨h.1, h.2.1, h.2.2.1, ?_, ?_⟩
      · intro d hd
        simp at hd
      · intro d hd
        simp at hd
    cases k with
    | closedLoopComm => exact guardInv_closedLoopCommutate _ h0 rfl
    | transitionComm => exact guardInv_transitionCommutate _
    | rampStep =>
      dsimp only
      split_ifs
      · exact h0
      · apply guardInv_of_fields _ _ h0 <;> rfl
      · obtain ⟨h1, h2, h3, _, _⟩ := h0
        refine ⟨h1, h2, h3, ?_, ?_⟩
        · intro d hd
          simp at hd
        · intro d hd
          simp at hd

/-- C2: in every reachable state of the commutation state machine, at most
one commutation event is pending (the one-shot driver has a single slot and
replaces any prior event on start), the closed-loop armed flag and the
handover flags are never set together (the closed-loop path arms only in
closed-loop mode when comm_armed is false, the handover path only in
open-loop mode when transition_scheduled is false, and the firing callbacks
clear their guard flags), and every armed slot callback is covered by its
guard flag. -/
theorem c2_at_most_one_pending_commutation (s : SysState)
    (h : Reachable s) :
    pendingCount s ≤ 1 ∧
    ¬(s.s_ctx.comm_armed = true ∧ s.s_ctx.transition_scheduled = true) ∧
    GuardInv s := by
  have hg : GuardInv s := by
    induction h with
    | init => exact guardInv_initState
    | fastLoop obs h ih => exact guardInv_fastLoop obs _ ih
    | lowLoop h ih => exact guardInv_lowLoop _ ih
    | fire c d h ih => exact guardInv_fire c d _ ih
    | setSpeed rpm h ih => exact guardInv_setSpeed rpm _ ih
    | stop h ih => exact guardInv_stopCmd _
  refine ⟨?_, ?_, hg⟩
  · cases hslot : s.slot <;> simp [pendingCount, hslot]
  · rintro ⟨hcomm, htrans⟩
    have h1 := hg.1 hcomm
    have h2 := hg.2.1 htrans
    rw [h1] at h2
    exact absurd h2 (by simp)

/-- Witness for c2 at the initialization state (reachable by construction). -/
theorem c2_at_most_one_pending_commutation_witness :
    pendingCount initState ≤ 1 ∧
    ¬(initState.s_ctx.comm_armed = true ∧
      initState.s_ctx.transition_scheduled = true) ∧
    GuardInv initState :=
  c2_at_most_one_pending_commutation initState Reachable.init

/-! ## Open-loop to closed-loop handover timing (C1) -/

theorem flClosedLoopSection_of_not_closedLoop (s : SysState)
    (hm : s.s_motor_mode ≠ .closedLoop) : flClosedLoopSection s = s := by
  unfold flClosedLoopSection
  rw [if_neg]
  intro hcon
  exact hm hcon.1

theorem transitionCommutate_mode (s : SysState) :
    (Motor_Transition_Commutate s).s_motor_mode = .closedLoop := by
  unfold Motor_Transition_Commutate Service_Motor_OpenLoopRamp_StopSoft
    Service_ScheduleCommutation
  dsimp only
  split_ifs <;> rfl

theorem transitionCommutate_ts (s : SysState) :
    (Motor_Transition_Commutate s).s_ctx.transition_scheduled = false := by
  unfold Motor_Transition_Commutate Service_Motor_OpenLoopRamp_StopSoft
    Service_ScheduleCommutation
  dsimp only
  split_ifs <;> rfl

theorem transitionCommutate_step (s : SysState) :
    (Motor_Transition_Commutate s).s_ctx.step = (s.s_ctx.step + 1) % 6 := by
  unfold Motor_Transition_Commutate Service_Motor_OpenLoopRamp_StopSoft
    Service_ScheduleCommutation
  dsimp only
  split_ifs <;> rfl

/-- Reduction of Motor_FastLoop to the handover section under the open-loop
zero-crossing hypotheses. -/
theorem motorFastLoop_openLoop_zc (obs : FastLoopObs) (s : SysState)
    (hm : s.s_motor_mode = .openLoop)
    (hzc : obs.status.zero_cross_detected = true) :
    Motor_FastLoop obs s =
      flHandoverSection obs
        { s with
          s_floating_phase :=
            Motor_GetFloatingPhase obs.ramp_step obs.ramp_dir,
          s_bemf_status := obs.status,
          s_zc_count := s.s_zc_count + 1 } := by
  unfold Motor_FastLoop
  dsimp only
  rw [if_pos hm]
  rw [if_neg (by rw [hzc]; simp)]
  rw [flClosedLoopSection_of_not_closedLoop]
  simp [hm]

/-- Core case analysis of the handover decision in Motor_FastLoop, shared by
the statements below. -/
theorem handover_timing_core (obs : FastLoopObs) (s : SysState)
    (hm : s.s_motor_mode = .openLoop)
    (hzc : obs.status.zero_cross_detected = true)
    (hv : obs.status.valid = true)
    (hts : s.s_ctx.transition_scheduled = false)
    (hph : obs.status.floating_phase =
      Motor_GetFloatingPhase obs.ramp_step obs.ramp_dir)
    (hcnt : CL_MIN_VALID_ZC ≤ s.s_valid_zc_count + 1)
    (hspeed : CL_ENTER_SPEED_HZ ≤ 1000000 / (6 * obs.status.period_us)) :
    (obs.status.period_us * COMM_LEAD_FACTOR -
        ((obs.now_us - obs.last_zc_time_us : ℕ) : ℚ) < COMM_DELAY_MIN_US →
      (Motor_FastLoop obs s).s_motor_mode = .closedLoop ∧
      (Motor_FastLoop obs s).s_ctx.transition_scheduled = false ∧
      (Motor_FastLoop obs s).s_ctx.step = (obs.ramp_step + 1) % 6) ∧
    (COMM_DELAY_MIN_US ≤ obs.status.period_us * COMM_LEAD_FACTOR -
        ((obs.now_us - obs.last_zc_time_us : ℕ) : ℚ) →
      (Motor_FastLoop obs s).slot =
        some (.transitionComm,
          ratToUInt32 (obs.status.period_us * COMM_LEAD_FACTOR -
            ((obs.now_us - obs.last_zc_time_us : ℕ) : ℚ))) ∧
      (Motor_FastLoop obs s).s_ctx.transition_scheduled = true ∧
      (Motor_FastLoop obs s).s_ctx.handover_armed = true ∧
      (Motor_FastLoop obs s).s_motor_mode = .openLoop ∧
      (Motor_FastLoop obs s).s_ctx.duty =
        max obs.ramp_duty CL_MIN_DUTY_TRANSITION) := by
  rw [motorFastLoop_openLoop_zc obs s hm hzc]
  unfold flHandoverSection
  dsimp only
  rw [if_pos ⟨hm, hv, hts⟩, if_pos hspeed, if_pos hph, if_pos hcnt]
  set t_comm : ℚ := obs.status.period_us * COMM_LEAD_FACTOR -
    ((obs.now_us - obs.last_zc_time_us : ℕ) : ℚ) with ht
  constructor
  · intro himm
    rw [if_pos himm]
    refine ⟨?_, ?_, ?_⟩
    · exact transitionCommutate_mode _
    · exact transitionCommutate_ts _
    · rw [transitionCommutate_step]
  · intro hsched
    rw [if_neg (not_lt.mpr hsched)]
    have h80 : 80 ≤ ratToUInt32 t_comm := by
      have hz : (80 : ℤ) ≤ ⌊t_comm⌋ := by
        rw [Int.le_floor]
        exact_mod_cast hsched
      unfold ratToUInt32
      omega
    have hmax : max (ratToUInt32 t_comm) 5 = ratToUInt32 t_comm := by
      omega
    refine ⟨?_, rfl, rfl, hm, rfl⟩
    simp only [Service_ScheduleCommutation]
    rw [hmax]

/-- C1 (amended): when the same-floating-phase streak reaches
CL_MIN_VALID_ZC while in OpenLoop with valid BEMF and electrical speed at or
above CL_ENTER_SPEED_HZ, the remaining time to the commutation instant is
the unclamped lead delay (BEMF period times COMM_LEAD_FACTOR) minus the age
already elapsed since the last zero-cross; if that remaining time is below
COMM_DELAY_MIN_US the transition commutation runs immediately (the mode
switches to ClosedLoop within this fast-loop call), otherwise the
transition commutation is scheduled after exactly the remaining time
(truncated to whole microseconds) with the guard flags set. The lead delay
is not clamped to [COMM_DELAY_MIN_US, COMM_DELAY_MAX_US] on this path. -/
theorem c1_handover_timing (obs : FastLoopObs) (s : SysState)
    (hm : s.s_motor_mode = .openLoop)
    (hzc : obs.status.zero_cross_detected = true)
    (hv : obs.status.valid = true)
    (hts : s.s_ctx.transition_scheduled = false)
    (hph : obs.status.floating_phase =
      Motor_GetFloatingPhase obs.ramp_step obs.ramp_dir)
    (hcnt : CL_MIN_VALID_ZC ≤ s.s_valid_zc_count + 1)
    (hspeed : CL_ENTER_SPEED_HZ ≤ 1000000 / (6 * obs.status.period_us)) :
    (obs.status.period_us * COMM_LEAD_FACTOR -
        ((obs.now_us - obs.last_zc_time_us : ℕ) : ℚ) < COMM_DELAY_MIN_US →
      (Motor_FastLoop obs s).s_motor_mode = .closedLoop ∧
      (Motor_FastLoop obs s).s_ctx.transition_scheduled = false ∧
      (Motor_FastLoop obs s).s_ctx.step = (obs.ramp_step + 1) % 6) ∧
    (COMM_DELAY_MIN_US ≤ obs.status.period_us * COMM_LEAD_FACTOR -
        ((obs.now_us - obs.last_zc_time_us : ℕ) : ℚ) →
      (Motor_FastLoop obs s).slot =
        some (.transitionComm,
          ratToUInt32 (obs.status.period_us * COMM_LEAD_FACTOR -
            ((obs.now_us - obs.last_zc_time_us : ℕ) : ℚ))) ∧
      (Motor_FastLoop obs s).s_ctx.transition_scheduled = true ∧
      (Motor_FastLoop obs s).s_ctx.handover_armed = true ∧
      (Motor_FastLoop obs s).s_motor_mode = .openLoop ∧
      (Motor_FastLoop obs s).s_ctx.duty =
        max obs.ramp_duty CL_MIN_DUTY_TRANSITION) :=
  handover_timing_core obs s hm hzc hv hts hph hcnt hspeed

/-- Witness for c1: an in-spec handover observation (period 400 µs, streak
already 3, zero age) schedules the transition commutation after
180 µs = ⌊400 x 0.45⌋ exactly. -/
theorem c1_handover_timing_witness :
    (Motor_FastLoop
        { status := { zero_cross_detected := true, period_us := 400
                      floating_phase := .C, valid := true }
          now_us := 9000, last_zc_time_us := 9000
          ramp_step := 0, ramp_duty := 3/10, ramp_dir := true }
        { initState with s_motor_mode := .openLoop
                         s_valid_zc_count := 3 }).slot =
      some (.transitionComm, 180) := by
  have h := c1_handover_timing
    { status := { zero_cross_detected := true, period_us := 400
                  floating_phase := .C, valid := true }
      now_us := 9000, last_zc_time_us := 9000
      ramp_step := 0, ramp_duty := 3/10, ramp_dir := true }
    { initState with s_motor_mode := .openLoop, s_valid_zc_count := 3 }
    rfl rfl rfl rfl (by decide) (by decide) (by norm_num [CL_ENTER_SPEED_HZ])
  have h2 := (h.2 (by norm_num [COMM_DELAY_MIN_US, COMM_LEAD_FACTOR])).1
  rw [h2]
  norm_num [COMM_LEAD_FACTOR, ratToUInt32]
  rfl

/-- Counterexample to C1 as stated: with a filtered period of 150 µs (speed
1111 Hz, above threshold) and zero age, the claim's clamped lead delay is
clamp(67.5) = 80 µs, so the remaining time 80 µs is not below
COMM_DELAY_MIN_US and the claim requires the transition to be scheduled;
the code instead computes the unclamped remaining time 67.5 µs < 80 and
commutates immediately (mode switches to ClosedLoop inside the fast loop,
no transition event is scheduled). -/
theorem c1_handover_timing_counterexample :
    clampQ ((150 : ℚ) * COMM_LEAD_FACTOR) COMM_DELAY_MIN_US COMM_DELAY_MAX_US
        - 0 = 80 ∧
    ¬(clampQ ((150 : ℚ) * COMM_LEAD_FACTOR) COMM_DELAY_MIN_US
        COMM_DELAY_MAX_US - 0 < COMM_DELAY_MIN_US) ∧
    (Motor_FastLoop
        { status := { zero_cross_detected := true, period_us := 150
                      floating_phase := .C, valid := true }
          now_us := 5000, last_zc_time_us := 5000
          ramp_step := 0, ramp_duty := 3/10, ramp_dir := true }
        { initState with s_motor_mode := .openLoop
                         s_valid_zc_count := 3 }).s_motor_mode =
      .closedLoop ∧
    (Motor_FastLoop
        { status := { zero_cross_detected := true, period_us := 150
                      floating_phase := .C, valid := true }
          now_us := 5000, last_zc_time_us := 5000
          ramp_step := 0, ramp_duty := 3/10, ramp_dir := true }
        { initState with s_motor_mode := .openLoop
                         s_valid_zc_count := 3 }).s_ctx.transition_scheduled
      = false := by
  have h := handover_timing_core
    { status := { zero_cross_detected := true, period_us := 150
                  floating_phase := .C, valid := true }
      now_us := 5000, last_zc_time_us := 5000
      ramp_step := 0, ramp_duty := 3/10, ramp_dir := true }
    { initState with s_motor_mode := .openLoop, s_valid_zc_count := 3 }
    rfl rfl rfl rfl (by decide) (by decide) (by norm_num [CL_ENTER_SPEED_HZ])
  have himm := h.1 (by norm_num [COMM_LEAD_FACTOR, COMM_DELAY_MIN_US])
  refine ⟨?_, ?_, himm.1, himm.2.1⟩
  · norm_num [clampQ, COMM_LEAD_FACTOR, COMM_DELAY_MIN_US, COMM_DELAY_MAX_US]
  · norm_num [clampQ, COMM_LEAD_FACTOR, COMM_DELAY_MIN_US, COMM_DELAY_MAX_US]

/-! ## Direction-reversal sequencing (C4) -/

/-- Measured mechanical speed after step 1 of Motor_LowLoop: when the stored
BEMF status is valid with a positive period it is freshly recomputed from
the electrical period and the pole-pair count, otherwise the previous value
is kept. This is exactly the value the reversal threshold test of the same
tick compares against 400 RPM (the later sections of the loop do not write
s_measured_speed_rpm). -/
def lowLoopMeasured (t : SysState) : ℚ :=
  if t.s_bemf_status.valid = true ∧ 0 < t.s_bemf_status.period_us then
    1000000 / (6 * t.s_bemf_status.period_us) * 60 / MOTOR_POLE_PAIRS
  else t.s_measured_speed_rpm

theorem lowLoop_measured_speed (t : SysState) :
    (Motor_LowLoop t).s_measured_speed_rpm = lowLoopMeasured t := by
  unfold Motor_LowLoop lowLoopMeasured Service_Motor_Align_Rotor_StartRamp
    Motor_StartOpenLoopRamp Service_Motor_Stop
  dsimp only
  split_ifs <;> rfl

theorem lowLoop_reverse_pending_above_threshold (t : SysState)
    (hfast : 400 ≤ lowLoopMeasured t) :
    (Motor_LowLoop t).s_ctx.direction_cw = t.s_ctx.direction_cw ∧
    (Motor_LowLoop t).s_reverse_pending = t.s_reverse_pending ∧
    (Motor_LowLoop t).s_motor_mode = t.s_motor_mode := by
  unfold lowLoopMeasured at hfast
  by_cases hvalid : t.s_bemf_status.valid = true
  · by_cases hper : 0 < t.s_bemf_status.period_us
    · rw [if_pos ⟨hvalid, hper⟩] at hfast
      have hko := not_lt.mpr hfast
      by_cases hmode : t.s_motor_mode = .closedLoop <;>
        simp [Motor_LowLoop, hvalid, hper, hmode, hko]
    · rw [if_neg (fun hco => hper hco.2)] at hfast
      have hko := not_lt.mpr hfast
      by_cases hmode : t.s_motor_mode = .closedLoop <;>
        simp [Motor_LowLoop, hvalid, hper, hmode, hko]
  · rw [if_neg (fun hco => hvalid hco.1)] at hfast
    have hko := not_lt.mpr hfast
    by_cases hmode : t.s_motor_mode = .closedLoop <;>
      simp [Motor_LowLoop, hvalid, hmode, hko]

theorem lowLoop_reverse_pending_below_threshold (t : SysState)
    (hpend : t.s_reverse_pending = true)
    (hslow : lowLoopMeasured t < 400) :
    (Motor_LowLoop t).s_ctx.direction_cw = (!t.s_ctx.direction_cw) ∧
    (Motor_LowLoop t).s_reverse_pending = false ∧
    (Motor_LowLoop t).s_motor_mode = .openLoop ∧
    (Motor_LowLoop t).s_commanded_speed_rpm = t.s_buffer_speed_rpm ∧
    (Motor_LowLoop t).ramp_active = true ∧
    (Motor_LowLoop t).s_ctx.comm_armed = false ∧
    (Motor_LowLoop t).s_ctx.transition_scheduled = false := by
  unfold lowLoopMeasured at hslow
  by_cases hvalid : t.s_bemf_status.valid = true
  · by_cases hper : 0 < t.s_bemf_status.period_us
    · rw [if_pos ⟨hvalid, hper⟩] at hslow
      by_cases hmode : t.s_motor_mode = .closedLoop <;>
        simp [Motor_LowLoop, Service_Motor_Align_Rotor_StartRamp,
          Motor_StartOpenLoopRamp, Service_Motor_Stop, hvalid, hper, hmode,
          hpend, hslow]
    · rw [if_neg (fun hco => hper hco.2)] at hslow
      by_cases hmode : t.s_motor_mode = .closedLoop <;>
        simp [Motor_LowLoop, Service_Motor_Align_Rotor_StartRamp,
          Motor_StartOpenLoopRamp, Service_Motor_Stop, hvalid, hper, hmode,
          hpend, hslow]
  · rw [if_neg (fun hco => hvalid hco.1)] at hslow
    by_cases hmode : t.s_motor_mode = .closedLoop <;>
      simp [Motor_LowLoop, Service_Motor_Align_Rotor_StartRamp,
        Motor_StartOpenLoopRamp, Service_Motor_Stop, hvalid, hmode, hpend,
        hslow]

/-- C4: commanding a speed of opposite sign while the motor runs never flips
the direction in the command handler: it zeroes the commanded target,
buffers the requested magnitude and sets the reverse-pending flag, leaving
direction and mode untouched. On every low-loop tick the reversal threshold
is compared against the measured speed of that tick (freshly recomputed
from the BEMF period when the stored status is valid, kept otherwise —
lowLoopMeasured, certified by the first low-loop conjunct): while it is at
or above the 400 RPM safety threshold the tick leaves the direction, the
pending flag and the mode alone; once a tick with the pending flag set sees
it below the threshold, the loop clears the flag, flips the direction,
performs the full stop, applies the buffered target as the new command, and
restarts through the Stopped → OpenLoop path (alignment then open-loop
ramp, guard flags clear, ramp active). -/
theorem c4_direction_reversal_deferred (s t : SysState) (rpm : ℚ)
    (hrun : s.s_motor_mode ≠ .stopped)
    (hdir : s.s_ctx.direction_cw ≠ decide (0 ≤ rpm)) :
    ((Control_Motor_SetSpeed_RPM rpm s).s_ctx.direction_cw =
        s.s_ctx.direction_cw ∧
      (Control_Motor_SetSpeed_RPM rpm s).s_motor_mode = s.s_motor_mode ∧
      (Control_Motor_SetSpeed_RPM rpm s).s_commanded_speed_rpm = 0 ∧
      (Control_Motor_SetSpeed_RPM rpm s).s_buffer_speed_rpm = |rpm| ∧
      (Control_Motor_SetSpeed_RPM rpm s).s_reverse_pending = true) ∧
    (Motor_LowLoop t).s_measured_speed_rpm = lowLoopMeasured t ∧
    (400 ≤ lowLoopMeasured t →
      (Motor_LowLoop t).s_ctx.direction_cw = t.s_ctx.direction_cw ∧
      (Motor_LowLoop t).s_reverse_pending = t.s_reverse_pending ∧
      (Motor_LowLoop t).s_motor_mode = t.s_motor_mode) ∧
    (t.s_reverse_pending = true → lowLoopMeasured t < 400 →
      (Motor_LowLoop t).s_ctx.direction_cw = (!t.s_ctx.direction_cw) ∧
      (Motor_LowLoop t).s_reverse_pending = false ∧
      (Motor_LowLoop t).s_motor_mode = .openLoop ∧
      (Motor_LowLoop t).s_commanded_speed_rpm = t.s_buffer_speed_rpm ∧
      (Motor_LowLoop t).ramp_active = true) := by
  refine ⟨?_, lowLoop_measured_speed t, ?_, ?_⟩
  · unfold Control_Motor_SetSpeed_RPM
    dsimp only
    rw [if_neg hrun, if_pos ⟨hdir, hrun⟩]
    exact ⟨rfl, rfl, rfl, rfl, rfl⟩
  · intro hfast
    exact lowLoop_reverse_pending_above_threshold t hfast
  · intro hpend hslow
    have h := lowLoop_reverse_pending_below_threshold t hpend hslow
    exact ⟨h.1, h.2.1, h.2.2.1, h.2.2.2.1, h.2.2.2.2.1⟩

/-- Witness for c4: a ClosedLoop CW run commanded -500 RPM defers the flip
(direction still CW, flag set); a pending-reversal tick with valid BEMF at
period 1000 µs (measured 1666.7 RPM, above threshold) leaves direction and
flag alone; a pending-reversal tick with valid BEMF at period 50000 µs
(measured 33.3 RPM, below threshold) flips to CCW and restarts in OpenLoop
with the buffered 500 RPM command. -/
theorem c4_direction_reversal_deferred_witness :
    ((Control_Motor_SetSpeed_RPM (-500)
        { initState with s_motor_mode := .closedLoop }).s_ctx.direction_cw
      = true ∧
     (Control_Motor_SetSpeed_RPM (-500)
        { initState with s_motor_mode := .closedLoop }).s_reverse_pending
      = true) ∧
    ((Motor_LowLoop
        { initState with s_motor_mode := .closedLoop
                         s_reverse_pending := true
                         s_buffer_speed_rpm := 500
                         s_bemf_status :=
                           { zero_cross_detected := false, period_us := 1000
                             floating_phase := .A, valid := true } }
       ).s_ctx.direction_cw = true ∧
     (Motor_LowLoop
        { initState with s_motor_mode := .closedLoop
                         s_reverse_pending := true
                         s_buffer_speed_rpm := 500
                         s_bemf_status :=
                           { zero_cross_detected := false, period_us := 1000
                             floating_phase := .A, valid := true } }
       ).s_reverse_pending = true) ∧
    ((Motor_LowLoop
        { initState with s_motor_mode := .closedLoop
                         s_reverse_pending := true
                         s_buffer_speed_rpm := 500
                         s_bemf_status :=
                           { zero_cross_detected := false
                             period_us := 50000
                             floating_phase := .A, valid := true } }
       ).s_ctx.direction_cw = false ∧
     (Motor_LowLoop
        { initState with s_motor_mode := .closedLoop
                         s_reverse_pending := true
                         s_buffer_speed_rpm := 500
                         s_bemf_status :=
                           { zero_cross_detected := false
                             period_us := 50000
                             floating_phase := .A, valid := true } }
       ).s_motor_mode = .openLoop ∧
     (Motor_LowLoop
        { initState with s_motor_mode := .closedLoop
                         s_reverse_pending := true
                         s_buffer_speed_rpm := 500
                         s_bemf_status :=
                           { zero_cross_detected := false
                             period_us := 50000
                             floating_phase := .A, valid := true } }
       ).s_commanded_speed_rpm = 500) := by
  have h1 := c4_direction_reversal_deferred
    { initState with s_motor_mode := .closedLoop }
    { initState with s_motor_mode := .closedLoop
                     s_reverse_pending := true
                     s_buffer_speed_rpm := 500
                     s_bemf_status :=
                       { zero_cross_detected := false, period_us := 1000
                         floating_phase := .A, valid := true } }
    (-500) (by decide) (by norm_num [initState])
  have h2 := c4_direction_reversal_deferred
    { initState with s_motor_mode := .closedLoop }
    { initState with s_motor_mode := .closedLoop
                     s_reverse_pending := true
                     s_buffer_speed_rpm := 500
                     s_bemf_status :=
                       { zero_cross_detected := false, period_us := 50000
                         floating_phase := .A, valid := true } }
    (-500) (by decide) (by norm_num [initState])
  have hfast := h1.2.2.1
    (by norm_num [lowLoopMeasured, MOTOR_POLE_PAIRS])
  have hslow := h2.2.2.2 rfl
    (by norm_num [lowLoopMeasured, MOTOR_POLE_PAIRS])
  exact ⟨⟨h1.1.1, h1.1.2.2.2.2⟩, ⟨hfast.1, hfast.2.1⟩,
    hslow.1, hslow.2.2.1, hslow.2.2.2.1⟩

end NovaDrone
